import Mathlib

/-!
Verification of the pig.js progressive image grid (src/pig.js).

We shallowly embed the two core algorithms of the library and the
lifecycle state machines around them:

* `computeLayout` embeds `Pig._computeLayout` (src/pig.js lines 684-768):
  the single-pass justified-row layout over the ordered aspect-ratio list.
  JavaScript `parseInt(x, 10)` on a finite number truncates toward zero;
  we model it with `jsTrunc` over exact rationals.
* `shouldLoad` / `doLayoutModel` embed the visibility decision of
  `Pig._doLayout` (lines 832-871): buffer selection, window bounds and the
  hide condition.
* `previousAfter` / `scrollDirAfter` / `onScrollNotify` embed the handler
  produced by `Pig._getOnScroll` (lines 890-906), including the JavaScript
  falsy `||` applied to a zero offset and the `inRAF` animation-frame guard.
* `PImageState` with `loadSync`, `loadDeferred`, `hideStep`, `onloadFire`
  embeds the `ProgressiveImage` materialisation lifecycle (lines 67-108,
  140-159).
* `ORState` / `PigListenerState` embed the listener bookkeeping of
  `OptimizedResize` (lines 213-269) and `Pig.enable` / `Pig.disable`
  (lines 498-526), with DOM `addEventListener` / `removeEventListener`
  identity semantics: every `.bind(this)` call produces a fresh function
  identity, modelled by a counter.
-/

/-- JavaScript `parseInt(x, 10)` applied to a finite number: truncation
toward zero. -/
def jsTrunc (q : ℚ) : ℤ := if 0 ≤ q then ⌊q⌋ else ⌈q⌉

/-- The style record `_computeLayout` assigns to each image: `width` and
`height` pass through `parseInt` (so they are integers), while `translateX`
and `translateY` are stored as written (untruncated running cursors).  The
`transition` string field of the source, a per-pass constant independent of
the geometry, is not modelled. -/
structure ItemStyle where
  width : ℤ
  height : ℤ
  translateX : ℚ
  translateY : ℚ
deriving DecidableEq

/-- The inner `row.forEach` of `_computeLayout` (lines 741-756): each image
of the closed row receives width `parseInt(rowHeight * aspectRatio)`,
height `parseInt(rowHeight)`, the running horizontal cursor `tx` (advanced
by the untruncated width plus spacing after each image), and the current
vertical cursor `ty`. -/
def rowStyles (rowHeight sp ty : ℚ) : ℚ → List ℚ → List ItemStyle
  | _, [] => []
  | tx, ar :: rest =>
    { width := jsTrunc (rowHeight * ar), height := jsTrunc rowHeight,
      translateX := tx, translateY := ty } ::
      rowStyles rowHeight sp ty (tx + rowHeight * ar + sp) rest

/-- The main loop of `Pig._computeLayout` (lines 717-764): walk the aspect
ratios, accumulating the current row `row` and its aspect-ratio sum `s`; a
row closes when the running sum reaches the minimum aspect ratio `m` or
the list ends; on close the sum is clamped up to `m`, the row height is
`(W - sp*(row.length - 1)) / clamped`, the row's styles are emitted, and
the vertical cursor advances by `parseInt(rowHeight) + sp`.  Returns the
styles in image order together with the final vertical cursor. -/
def computeLayoutAux (W sp m : ℚ) : List ℚ → List ℚ → ℚ → ℚ → List ItemStyle × ℚ
  | [], _row, _s, ty => ([], ty)
  | ar :: rest, row, s, ty =>
    if s + ar ≥ m ∨ rest = [] then
      (rowStyles ((W - sp * (((row ++ [ar]).length : ℚ) - 1)) / max (s + ar) m) sp ty 0
          (row ++ [ar]) ++
        (computeLayoutAux W sp m rest [] 0
          (ty + (jsTrunc ((W - sp * (((row ++ [ar]).length : ℚ) - 1)) / max (s + ar) m) : ℚ)
            + sp)).1,
       (computeLayoutAux W sp m rest [] 0
          (ty + (jsTrunc ((W - sp * (((row ++ [ar]).length : ℚ) - 1)) / max (s + ar) m) : ℚ)
            + sp)).2)
    else
      computeLayoutAux W sp m rest (row ++ [ar]) (s + ar) ty

/-- `Pig._computeLayout`: styles for every image plus `this.totalHeight`,
the final vertical cursor minus one spacing unit (line 767). -/
def computeLayout (ars : List ℚ) (W sp m : ℚ) : List ItemStyle × ℚ :=
  ((computeLayoutAux W sp m ars [] 0 0).1, (computeLayoutAux W sp m ars [] 0 0).2 - sp)

/-- Modelled on the spec's row-closing words, for the refinement statement:
greedily partition the aspect ratios into rows, a row closing exactly when
the running sum first reaches or exceeds `m`, or at the end of the list. -/
def greedyRowsAux (m : ℚ) : List ℚ → List ℚ → ℚ → List (List ℚ)
  | [], _row, _s => []
  | ar :: rest, row, s =>
    if s + ar ≥ m ∨ rest = [] then (row ++ [ar]) :: greedyRowsAux m rest [] 0
    else greedyRowsAux m rest (row ++ [ar]) (s + ar)

/-- The greedy row partition of an aspect-ratio list. -/
def greedyRows (m : ℚ) (ars : List ℚ) : List (List ℚ) := greedyRowsAux m ars [] 0

/-- The spec's per-row aspect ratio: the row's sum clamped up to at least
the minimum `m`. -/
def rowAspect (m : ℚ) (r : List ℚ) : ℚ := max r.sum m

/-- The spec's row height: the available width after interior spacing,
divided by the clamped row aspect ratio. -/
def rowHeightOf (W sp m : ℚ) (r : List ℚ) : ℚ :=
  (W - sp * ((r.length : ℚ) - 1)) / rowAspect m r

/-- Row-by-row layout following the spec's presentation: lay out each
closed row with `rowStyles`, advancing the vertical cursor by the truncated
row height plus spacing after each row. -/
def layoutRows (W sp m : ℚ) : List (List ℚ) → ℚ → List ItemStyle × ℚ
  | [], ty => ([], ty)
  | r :: rs, ty =>
    (rowStyles (rowHeightOf W sp m r) sp ty 0 r ++
       (layoutRows W sp m rs (ty + (jsTrunc (rowHeightOf W sp m r) : ℚ) + sp)).1,
     (layoutRows W sp m rs (ty + (jsTrunc (rowHeightOf W sp m r) : ℚ) + sp)).2)

/-- The layout organised as partition-then-per-row formulas (the spec's
description of the algorithm), to be compared with `computeLayout`. -/
def specLayout (ars : List ℚ) (W sp m : ℚ) : List ItemStyle × ℚ :=
  ((layoutRows W sp m (greedyRows m ars) 0).1,
   (layoutRows W sp m (greedyRows m ars) 0).2 - sp)

/-- The two scroll directions tracked by `Pig`. -/
inductive ScrollDir
  | up
  | down
deriving DecidableEq

/-- Line 894: `that.previousYOffset = that.latestYOffset || newYOffset`.
JavaScript `||` falls through when the left operand is falsy, and the
number `0` is falsy, so a stored offset of `0` is replaced by the new
offset. -/
def previousAfter (latest newY : ℚ) : ℚ := if latest = 0 then newY else latest

/-- Line 896: the scroll direction after a notification reading offset
`newY` with stored offset `latest`: strictly greater than the previous
offset means down, otherwise up. -/
def scrollDirAfter (latest newY : ℚ) : ScrollDir :=
  if newY > previousAfter latest newY then ScrollDir.down else ScrollDir.up

/-- The state read by `Pig._doLayout` (lines 832-871): scroll direction,
the two buffer heights from the settings, the latest scroll offset, the
container's offset from the top of the page, the scroller's viewport
height, and the computed total content height. -/
structure Viewport where
  scrollDirection : ScrollDir
  primaryImageBufferHeight : ℚ
  secondaryImageBufferHeight : ℚ
  latestYOffset : ℚ
  containerOffset : ℚ
  scrollerHeight : ℚ
  totalHeight : ℚ
deriving DecidableEq

/-- Lines 837-840: `bufferTop` is the primary buffer when scrolling up,
otherwise the secondary buffer. -/
def bufferTop (v : Viewport) : ℚ :=
  if v.scrollDirection = ScrollDir.up then v.primaryImageBufferHeight
  else v.secondaryImageBufferHeight

/-- Lines 841-844: `bufferBottom` is the secondary buffer when scrolling
down, otherwise the primary buffer. -/
def bufferBottom (v : Viewport) : ℚ :=
  if v.scrollDirection = ScrollDir.down then v.secondaryImageBufferHeight
  else v.primaryImageBufferHeight

/-- Line 853: the top of the top buffer; an image whose bottom is above
this line is removed. -/
def minTranslateYPlusHeight (v : Viewport) : ℚ :=
  v.latestYOffset - v.containerOffset - bufferTop v

/-- Line 857: the bottom of the bottom buffer; an image whose top is below
this line is removed. -/
def maxTranslateY (v : Viewport) : ℚ :=
  v.latestYOffset - v.containerOffset + v.scrollerHeight + bufferBottom v

/-- Lines 862-863: the hide condition of `_doLayout`. -/
def shouldHide (v : Viewport) (st : ItemStyle) : Bool :=
  decide (st.translateY + (st.height : ℚ) < minTranslateYPlusHeight v) ||
    decide (st.translateY > maxTranslateY v)

/-- An image is loaded exactly when the hide condition fails
(lines 861-870). -/
def shouldLoad (v : Viewport) (st : ItemStyle) : Bool := !shouldHide v st

/-- `Pig._doLayout` as a pure function: it writes `totalHeight` as the
container height (line 834) and maps every image style to a load/hide
decision (`true` means `load()` is called, `false` means `hide()`). -/
def doLayoutModel (v : Viewport) (styles : List ItemStyle) : ℚ × List Bool :=
  (v.totalHeight, styles.map (shouldLoad v))

/-- An `<img>` sub-element of a figure: its source locator and its class
attribute. -/
structure SubElement where
  src : String
  className : String
deriving DecidableEq

/-- The observable state of one `ProgressiveImage`: the `existsOnPage`
flag, whether its figure node is attached to the grid container, and the
two optional sub-elements. -/
structure PImageState where
  existsOnPage : Bool
  inContainer : Bool
  thumbnail : Option SubElement
  fullImage : Option SubElement
deriving DecidableEq

/-- The synchronous part of `ProgressiveImage.load` (lines 67-73): set
`existsOnPage` and append the figure to the container.  The rest of the
work is deferred by a 100 ms timeout, modelled by `loadDeferred`. -/
def loadSync (s : PImageState) : PImageState :=
  { s with existsOnPage := true, inContainer := true }

/-- `addImageAsSubElement` (lines 140-159) on one sub-element slot: only
when the slot is empty is a fresh image created with the given source and
class. -/
def addSub (cur : Option SubElement) (url cls : String) : Option SubElement :=
  match cur with
  | some e => some e
  | none => some { src := url, className := cls }

/-- `addAllSubElements` (lines 164-170): attach the thumbnail and the full
image. -/
def addAllSubElements (s : PImageState) (thumbUrl fullUrl : String) : PImageState :=
  { s with thumbnail := addSub s.thumbnail thumbUrl ("pig-thumbnail"),
           fullImage := addSub s.fullImage fullUrl ("") }

/-- The deferred callback inside `load` (lines 79-87): if `hide` ran inside
the 100 ms window, `existsOnPage` is false and the callback returns without
attaching anything; otherwise it attaches both sub-elements. -/
def loadDeferred (s : PImageState) (thumbUrl fullUrl : String) : PImageState :=
  if s.existsOnPage then addAllSubElements s thumbUrl fullUrl else s

/-- `ProgressiveImage.hide` (lines 95-108): remove both sub-elements
(`getElement()` is always non-null since it creates the element on
demand), remove the figure from the container when `existsOnPage`, and
clear `existsOnPage`. -/
def hideStep (s : PImageState) : PImageState :=
  { existsOnPage := false,
    inContainer := if s.existsOnPage then false else s.inContainer,
    thumbnail := none,
    fullImage := none }

/-- The `onload` closure installed in `addImageAsSubElement`
(lines 149-155): it holds its own reference to the created image and only
appends the loaded class to that image's class attribute. -/
def subElementOnload (a : SubElement) : SubElement :=
  { a with className := a.className ++ (" pig-loaded") }

/-- Firing an asset's completion after the grid state reached `s`: the
handler is a total function that returns the image state untouched and
mutates only the closed-over sub-element. -/
def onloadFire (s : PImageState) (a : SubElement) : PImageState × SubElement :=
  (s, subElementOnload a)

/-- DOM `addEventListener`: registering the same function identity twice
for one event type is a no-op, otherwise the listener is appended. -/
def addEvent (l : List Nat) (i : Nat) : List Nat := if i ∈ l then l else l ++ [i]

/-- The state of one `OptimizedResize` instance together with the window's
resize-listener list: the number of registered callbacks, the identities
of the attached window resize listeners, and a counter producing the fresh
function identity that each `this._resize.bind(this)` call evaluates to. -/
structure ORState where
  callbacks : Nat
  resizeListeners : List Nat
  nextBindId : Nat
deriving DecidableEq

/-- `OptimizedResize` constructor (lines 217-220) with no window listener
attached. -/
def orInit : ORState := { callbacks := 0, resizeListeners := [], nextBindId := 0 }

/-- `OptimizedResize.add` (lines 227-233): when the callback list is empty,
attach `this._resize.bind(this)` (a fresh identity) to the window, then
push the callback. -/
def orAdd (s : ORState) : ORState :=
  if s.callbacks = 0 then
    { callbacks := s.callbacks + 1,
      resizeListeners := addEvent s.resizeListeners s.nextBindId,
      nextBindId := s.nextBindId + 1 }
  else { s with callbacks := s.callbacks + 1 }

/-- `OptimizedResize.disable` (lines 238-240): calls `removeEventListener`
with `this._resize.bind(this)`, which is again a fresh function identity,
never the one that was attached. -/
def orDisable (s : ORState) : ORState :=
  { s with resizeListeners := s.resizeListeners.erase s.nextBindId,
           nextBindId := s.nextBindId + 1 }

/-- The listener bookkeeping of one `Pig` instance: its `OptimizedResize`,
the scroller's scroll-listener list, the current `this.onScroll`
reference, and a counter producing the identity of each freshly created
`onScroll` closure. -/
structure PigListenerState where
  resize : ORState
  scrollListeners : List Nat
  onScrollRef : Option Nat
  nextScrollId : Nat
deriving DecidableEq

/-- A freshly constructed `Pig`: no listeners anywhere. -/
def pigListenersInit : PigListenerState :=
  { resize := orInit, scrollListeners := [], onScrollRef := none, nextScrollId := 0 }

/-- `Pig.enable` (lines 498-515): create a fresh `onScroll` closure,
attach it to the scroller, and register the layout callback with the
resize manager. -/
def pigEnable (s : PigListenerState) : PigListenerState :=
  { resize := orAdd s.resize,
    scrollListeners := addEvent s.scrollListeners s.nextScrollId,
    onScrollRef := some s.nextScrollId,
    nextScrollId := s.nextScrollId + 1 }

/-- `Pig.disable` (lines 522-526): detach `this.onScroll` from the
scroller and call `OptimizedResize.disable`. -/
def pigDisable (s : PigListenerState) : PigListenerState :=
  { s with
    scrollListeners :=
      match s.onScrollRef with
      | some f => s.scrollListeners.erase f
      | none => s.scrollListeners,
    resize := orDisable s.resize }

/-- The scroll-handler state of a `Pig` instance (lines 890-906): the two
offsets, the derived direction, the `inRAF` guard, and the number of
layout passes scheduled via `requestAnimationFrame` in the current
frame. -/
structure RafState where
  latestYOffset : ℚ
  previousYOffset : ℚ
  scrollDirection : ScrollDir
  inRAF : Bool
  scheduledLayouts : Nat
deriving DecidableEq

/-- One scroll notification (the body of `onScroll`, lines 890-906):
update the offsets and the direction, then schedule a layout pass unless
one is already in flight. -/
def onScrollNotify (s : RafState) (newY : ℚ) : RafState :=
  let s1 : RafState :=
    { s with previousYOffset := previousAfter s.latestYOffset newY,
             latestYOffset := newY,
             scrollDirection := scrollDirAfter s.latestYOffset newY }
  if s1.inRAF then s1
  else { s1 with inRAF := true, scheduledLayouts := s1.scheduledLayouts + 1 }

/-- The animation frame firing (lines 901-904): the scheduled callback
runs `_doLayout` against the state current at frame time and clears the
guard.  Returns the offset/direction pair the layout pass reads, and the
successor state. -/
def frameFire (s : RafState) : (ℚ × ScrollDir) × RafState :=
  ((s.latestYOffset, s.scrollDirection),
   { s with inRAF := false, scheduledLayouts := s.scheduledLayouts - 1 })

/-- The scroll-handler state of a freshly constructed `Pig`
(lines 458-464): `inRAF` false, offset 0, direction down. -/
def rafInit : RafState :=
  { latestYOffset := 0, previousYOffset := 0, scrollDirection := ScrollDir.down,
    inRAF := false, scheduledLayouts := 0 }

/-- A concrete viewport used for boundary witnesses: scrolling down,
default buffer heights, offset 2000 in an 800-pixel-high scroller. -/
def vpBoundary : Viewport :=
  { scrollDirection := ScrollDir.down, primaryImageBufferHeight := 1000,
    secondaryImageBufferHeight := 300, latestYOffset := 2000,
    containerOffset := 0, scrollerHeight := 800, totalHeight := 5000 }

/-- A concrete item style whose bottom edge sits exactly on the top of the
top buffer of `vpBoundary`: translateY + height = 2000 - 0 - 300 = 1700. -/
def styBoundary : ItemStyle :=
  { width := 300, height := 200, translateX := 0, translateY := 1500 }

theorem jsTrunc_nonneg {q : ℚ} (h : 0 ≤ q) : 0 ≤ jsTrunc q := by
  simp only [jsTrunc, if_pos h]
  exact Int.floor_nonneg.mpr h

theorem jsTrunc_le {q : ℚ} (h : 0 ≤ q) : (jsTrunc q : ℚ) ≤ q := by
  simp only [jsTrunc, if_pos h]
  exact Int.floor_le q

theorem sub_one_lt_jsTrunc {q : ℚ} (h : 0 ≤ q) : q - 1 < (jsTrunc q : ℚ) := by
  simp only [jsTrunc, if_pos h]
  have := Int.lt_floor_add_one q
  linarith

theorem greedyRowsAux_cons (m ar : ℚ) (rest row : List ℚ) (s : ℚ) :
    greedyRowsAux m (ar :: rest) row s =
      if s + ar ≥ m ∨ rest = [] then (row ++ [ar]) :: greedyRowsAux m rest [] 0
      else greedyRowsAux m rest (row ++ [ar]) (s + ar) := rfl

theorem computeLayoutAux_eq_layoutRows (W sp m : ℚ) :
    ∀ (l row : List ℚ) (s ty : ℚ), s = row.sum →
      computeLayoutAux W sp m l row s ty =
        layoutRows W sp m (greedyRowsAux m l row s) ty := by
  intro l
  induction l with
  | nil => intro row s ty hs; rfl
  | cons ar rest ih =>
    intro row s ty hs
    by_cases h : s + ar ≥ m ∨ rest = []
    · have hsum : (row ++ [ar]).sum = s + ar := by
        simp [List.sum_append, hs]
      simp only [computeLayoutAux, greedyRowsAux, if_pos h, layoutRows, rowHeightOf, rowAspect,
        hsum]
      rw [ih [] 0 _ (by simp)]
    · simp only [computeLayoutAux, greedyRowsAux, if_neg h]
      exact ih (row ++ [ar]) (s + ar) ty (by simp [List.sum_append, hs])

theorem computeLayout_eq_specLayout (ars : List ℚ) (W sp m : ℚ) :
    computeLayout ars W sp m = specLayout ars W sp m := by
  unfold computeLayout specLayout greedyRows
  rw [computeLayoutAux_eq_layoutRows W sp m ars [] 0 0 (by simp)]

theorem greedyRowsAux_append (m b : ℚ) :
    ∀ (l row : List ℚ) (s : ℚ), s = row.sum → (l = [] → row = []) →
      (∀ r ∈ greedyRowsAux m l row s, m ≤ r.sum) →
      greedyRowsAux m (l ++ [b]) row s = greedyRowsAux m l row s ++ [[b]] := by
  intro l
  induction l with
  | nil =>
    intro row s hs hrow _
    rw [hrow rfl] at hs ⊢
    simp at hs
    subst hs
    simp [greedyRowsAux]
  | cons ar rest ih =>
    intro row s hs hrow hmem
    rw [List.cons_append, greedyRowsAux_cons, greedyRowsAux_cons]
    split_ifs with hA hB hB
    · rw [List.cons_append]
      refine congrArg (List.cons _) (ih [] 0 rfl (fun _ => rfl) ?_)
      intro r hr
      apply hmem
      rw [greedyRowsAux_cons, if_pos hB]
      exact List.mem_cons_of_mem _ hr
    · exfalso
      rcases hA with hA | hA
      · exact hB (Or.inl hA)
      · simp at hA
    · exfalso
      have h1 : ¬ s + ar ≥ m := fun hge => hA (Or.inl hge)
      have hmemrow : m ≤ (row ++ [ar]).sum := by
        apply hmem
        rw [greedyRowsAux_cons, if_pos hB]
        exact List.mem_cons_self _ _
      rw [List.sum_append, List.sum_cons, List.sum_nil, ← hs] at hmemrow
      exact h1 (by linarith)
    · have h2 : rest ≠ [] := fun he => hB (Or.inr he)
      refine ih (row ++ [ar]) (s + ar) (by simp [hs]) (fun hre => absurd hre h2) ?_
      intro r hr
      apply hmem
      rw [greedyRowsAux_cons, if_neg hB]
      exact hr

theorem layoutRows_snd_append (W sp m : ℚ) (r : List ℚ) :
    ∀ (rs : List (List ℚ)) (ty : ℚ),
      (layoutRows W sp m (rs ++ [r]) ty).2 =
        (layoutRows W sp m rs ty).2 + (jsTrunc (rowHeightOf W sp m r) : ℚ) + sp := by
  intro rs
  induction rs with
  | nil => intro ty; simp [layoutRows]
  | cons r0 rs ih =>
    intro ty
    rw [List.cons_append]
    simp only [layoutRows]
    rw [ih]

theorem rowHeightOf_single_nonneg (W sp m b : ℚ) (hW : 0 ≤ W) (hb : 0 < b) :
    0 ≤ rowHeightOf W sp m [b] := by
  unfold rowHeightOf rowAspect
  simp only [List.length_cons, List.length_nil, List.sum_cons, List.sum_nil, add_zero]
  norm_num
  apply div_nonneg hW
  exact le_of_lt (lt_max_of_lt_left hb)

theorem rowStyles_widths (h sp ty : ℚ) :
    ∀ (l : List ℚ) (tx : ℚ),
      (rowStyles h sp ty tx l).map ItemStyle.width = l.map (fun a => jsTrunc (h * a)) := by
  intro l
  induction l with
  | nil => intro tx; rfl
  | cons a rest ih =>
    intro tx
    simp only [rowStyles, List.map_cons]
    rw [ih]

theorem truncSum_le (h : ℚ) :
    ∀ l : List ℚ, (∀ a ∈ l, 0 ≤ h * a) →
      (((l.map (fun a => jsTrunc (h * a))).sum : ℚ)) ≤ h * l.sum := by
  intro l
  induction l with
  | nil => intro _; simp
  | cons a rest ih =>
    intro hpos
    have h1 := jsTrunc_le (hpos a (List.mem_cons_self a rest))
    have h2 := ih (fun x hx => hpos x (List.mem_cons_of_mem a hx))
    simp only [List.map_cons, List.sum_cons]
    push_cast
    push_cast at h2
    have hmul : h * (a + rest.sum) = h * a + h * rest.sum := by ring
    rw [hmul]
    linarith

theorem truncSum_gt (h : ℚ) :
    ∀ l : List ℚ, (∀ a ∈ l, 0 ≤ h * a) → l ≠ [] →
      h * l.sum - l.length < (((l.map (fun a => jsTrunc (h * a))).sum : ℚ)) := by
  intro l
  induction l with
  | nil => intro _ hne; exact absurd rfl hne
  | cons a rest ih =>
    intro hpos _
    have h1 := sub_one_lt_jsTrunc (hpos a (List.mem_cons_self a rest))
    rcases eq_or_ne rest [] with hre | hre
    · subst hre
      simp only [List.map_cons, List.map_nil, List.sum_cons, List.sum_nil, List.length_cons,
        List.length_nil]
      push_cast
      linarith
    · have h2 := ih (fun x hx => hpos x (List.mem_cons_of_mem a hx)) hre
      simp only [List.map_cons, List.sum_cons, List.length_cons]
      push_cast
      push_cast at h2
      have hmul : h * (a + rest.sum) = h * a + h * rest.sum := by ring
      rw [hmul]
      linarith

/-- Claim C1 (amended scenario): the layout pass is exactly the spec's
partition-then-per-row computation — rows close exactly when the running
aspect-ratio sum first reaches or exceeds the minimum or the list ends, the
closed row's aspect ratio is clamped up to the minimum, the row height is
`(W - s*(n-1))` over the clamped aspect ratio, widths are `rowHeight *
aspectRatio`, `translateX` is a running horizontal cursor advanced by
width plus spacing and `translateY` a vertical cursor advanced by the
truncated row height plus spacing per closed row.  For the concrete
scenario `[1.777, 1.5, 1.777, 1.777, 1, 2.4]` with `W = 1000`, `s = 8`,
`m = 5`, the first row closes with the first THREE items (running sum
`5.054 ≥ 5`), and the remaining three items form the second row (sum
`5.177 ≥ 5`, not clamped), as witnessed by the translateY assignments. -/
theorem c1_row_packing :
    (∀ (ars : List ℚ) (W sp m : ℚ), computeLayout ars W sp m = specLayout ars W sp m) ∧
    greedyRows 5 [1777/1000, 3/2, 1777/1000, 1777/1000, 1, 12/5] =
      [[1777/1000, 3/2, 1777/1000], [1777/1000, 1, 12/5]] ∧
    (5 : ℚ) ≤ 1777/1000 + 3/2 + 1777/1000 ∧
    (5 : ℚ) ≤ 1777/1000 + 1 + 12/5 ∧
    (computeLayout [1777/1000, 3/2, 1777/1000, 1777/1000, 1, 12/5] 1000 8 5).1.map
      ItemStyle.translateY = [0, 0, 0, 202, 202, 202] := by
  refine ⟨computeLayout_eq_specLayout, ?_, by norm_num, by norm_num, ?_⟩
  · norm_num [greedyRows, greedyRowsAux, List.cons_ne_nil]
  · norm_num [computeLayout, computeLayoutAux, rowStyles, jsTrunc, List.cons_ne_nil]

/-- Claim C1, counterexample to the stated scenario: the claim says the
first row closes with the first 4 items, which would give the item at
index 3 a translateY of 0; in fact the first row closes after 3 items
(sum `5.054 ≥ 5`) and item 3 starts the second row at translateY 202. -/
theorem c1_counterexample :
    ((computeLayout [1777/1000, 3/2, 1777/1000, 1777/1000, 1, 12/5] 1000 8 5).1.map
      ItemStyle.translateY)[3]? = some 202 ∧ (202 : ℚ) ≠ 0 := by
  norm_num [computeLayout, computeLayoutAux, rowStyles, jsTrunc, List.cons_ne_nil]

/-- Claim C2 (amended): for every row of the greedy partition whose
UNCLAMPED aspect-ratio sum reaches the minimum, the row's truncated item
widths plus interior spacing fill the container width to within one pixel
per item: the deficit is at least 0 and strictly less than the number of
items in the row.  (For a clamped trailing row this fails; see the
counterexample.) -/
theorem c2_row_width_fill (W sp m : ℚ) (ars row : List ℚ) (ty tx : ℚ)
    (hmem : row ∈ greedyRows m ars) (hsum : m ≤ row.sum)
    (hpos : ∀ a ∈ row, 0 < a) (hm : 0 < m) (hsp : 0 ≤ sp)
    (hW : sp * ((row.length : ℚ) - 1) ≤ W) :
    0 ≤ W - ((((rowStyles (rowHeightOf W sp m row) sp ty tx row).map ItemStyle.width).sum : ℚ)
        + sp * ((row.length : ℚ) - 1)) ∧
    W - ((((rowStyles (rowHeightOf W sp m row) sp ty tx row).map ItemStyle.width).sum : ℚ)
        + sp * ((row.length : ℚ) - 1)) < row.length := by
  have hrowpos : (0 : ℚ) < row.sum := lt_of_lt_of_le hm hsum
  have hmax : rowAspect m row = row.sum := max_eq_left hsum
  have hh : 0 ≤ rowHeightOf W sp m row := by
    unfold rowHeightOf
    rw [hmax]
    exact div_nonneg (by linarith) (le_of_lt hrowpos)
  have hprod : rowHeightOf W sp m row * row.sum = W - sp * ((row.length : ℚ) - 1) := by
    unfold rowHeightOf
    rw [hmax]
    exact div_mul_cancel₀ _ (ne_of_gt hrowpos)
  have hposmul : ∀ a ∈ row, 0 ≤ rowHeightOf W sp m row * a :=
    fun a ha => mul_nonneg hh (le_of_lt (hpos a ha))
  have hne : row ≠ [] := by
    intro he
    rw [he, List.sum_nil] at hrowpos
    exact lt_irrefl 0 hrowpos
  rw [rowStyles_widths]
  constructor
  · have := truncSum_le (rowHeightOf W sp m row) row hposmul
    linarith
  · have := truncSum_gt (rowHeightOf W sp m row) row hposmul hne
    linarith

/-- Witness for C2 at a concrete input: the single row `[6]` with
`W = 1000`, `s = 8`, `m = 5` fills the width exactly (deficit 0 < 1). -/
theorem c2_row_width_fill_witness :
    0 ≤ (1000 : ℚ) -
        ((((rowStyles (rowHeightOf 1000 8 5 [6]) 8 0 0 [6]).map ItemStyle.width).sum : ℚ)
          + 8 * ((([(6 : ℚ)].length : ℚ)) - 1)) ∧
    (1000 : ℚ) -
        ((((rowStyles (rowHeightOf 1000 8 5 [6]) 8 0 0 [6]).map ItemStyle.width).sum : ℚ)
          + 8 * ((([(6 : ℚ)].length : ℚ)) - 1)) < ([(6 : ℚ)].length : ℚ) :=
  c2_row_width_fill 1000 8 5 [6] [6] 0 0
    (by norm_num [greedyRows, greedyRowsAux])
    (by norm_num) (by norm_num) (by norm_num) (by norm_num) (by norm_num)

/-- Claim C2, counterexample: with aspect ratios `[1, 2.4]`, `W = 1000`,
`s = 8`, `m = 5`, the single (trailing, clamped) row's truncated widths
are 198 and 476, so widths plus interior spacing total 682, leaving a
deficit of 318 — far beyond the claimed 1-pixel-per-item tolerance of 2. -/
theorem c2_counterexample :
    (computeLayout [1, 12/5] 1000 8 5).1.map ItemStyle.width = [198, 476] ∧
    (1000 : ℚ) - ((198 + 476) + 8 * (2 - 1)) = 318 ∧ ¬ ((318 : ℚ) ≤ 2) := by
  refine ⟨?_, by norm_num, by norm_num⟩
  norm_num [computeLayout, computeLayoutAux, rowStyles, jsTrunc, List.cons_ne_nil]

/-- Claim C3 (amended): appending an item strictly increases the total
height PROVIDED every row of the existing layout (in particular the last)
already reaches the minimum aspect ratio, the spacing is positive, the
container width is non-negative and the new aspect ratio is positive; the
new item then opens a fresh row of non-negative truncated height.  Without
the proviso the claim is false: extending a clamped trailing row can
shrink the total height (see the counterexample). -/
theorem c3_total_height_append (ars : List ℚ) (b W sp m : ℚ)
    (hsp : 0 < sp) (hW : 0 ≤ W) (hb : 0 < b)
    (hrows : ∀ r ∈ greedyRows m ars, m ≤ r.sum) :
    (computeLayout ars W sp m).2 < (computeLayout (ars ++ [b]) W sp m).2 := by
  have e1 := computeLayoutAux_eq_layoutRows W sp m ars [] 0 0 (by simp)
  have e2 := computeLayoutAux_eq_layoutRows W sp m (ars ++ [b]) [] 0 0 (by simp)
  have eg : greedyRowsAux m (ars ++ [b]) [] 0 = greedyRowsAux m ars [] 0 ++ [[b]] :=
    greedyRowsAux_append m b ars [] 0 (by simp) (fun _ => rfl) hrows
  unfold computeLayout
  rw [e1, e2, eg, layoutRows_snd_append]
  dsimp only
  have ht := jsTrunc_nonneg (rowHeightOf_single_nonneg W sp m b hW hb)
  have htq : (0 : ℚ) ≤ (jsTrunc (rowHeightOf W sp m [b]) : ℚ) := by exact_mod_cast ht
  linarith

/-- Witness for C3 at a concrete input: appending aspect ratio 1 to `[6]`
(whose single row has sum `6 ≥ 5`) grows the total height from 166 to
374. -/
theorem c3_total_height_append_witness :
    (computeLayout [6] 1000 8 5).2 < (computeLayout ([6] ++ [1]) 1000 8 5).2 :=
  c3_total_height_append [6] 1 1000 8 5 (by norm_num) (by norm_num) (by norm_num)
    (by norm_num [greedyRows, greedyRowsAux])

/-- Claim C3, counterexample: with `W = 1000`, `s = 8`, `m = 5`, the list
`[1]` has total height 200, but appending another item of aspect ratio 1
extends the clamped trailing row and SHRINKS the total height to 198 —
total height does not strictly increase for every appended item. -/
theorem c3_counterexample :
    (computeLayout ([1] ++ [1]) 1000 8 5).2 < (computeLayout [1] 1000 8 5).2 := by
  norm_num [computeLayout, computeLayoutAux, rowStyles, jsTrunc, List.cons_ne_nil]

theorem scrollDir_down_ne_up : (ScrollDir.down = ScrollDir.up) = False := by
  simp

theorem scrollDir_up_ne_down : (ScrollDir.up = ScrollDir.down) = False := by
  simp

/-- Claim C4: in the visibility pass, bufferTop is the primary buffer
exactly when scrolling up, bufferBottom is the secondary buffer exactly
when scrolling down, the window bounds are offset-minus-buffer and
offset-plus-viewport-plus-buffer, and an item is loaded if and only if its
vertical span `[translateY, translateY + height]` intersects
`[lowerBound, upperBound]` — equivalently, iff the hide disjunction is
false. -/
theorem c4_visibility_decision (v : Viewport) (st : ItemStyle) (styles : List ItemStyle) :
    bufferTop v = (if v.scrollDirection = ScrollDir.up then v.primaryImageBufferHeight
      else v.secondaryImageBufferHeight) ∧
    bufferBottom v = (if v.scrollDirection = ScrollDir.down then v.secondaryImageBufferHeight
      else v.primaryImageBufferHeight) ∧
    minTranslateYPlusHeight v = v.latestYOffset - v.containerOffset - bufferTop v ∧
    maxTranslateY v = v.latestYOffset - v.containerOffset + v.scrollerHeight + bufferBottom v ∧
    (doLayoutModel v styles).2 = styles.map (shouldLoad v) ∧
    ((shouldLoad v st = true) ↔
      ¬(st.translateY + (st.height : ℚ) < minTranslateYPlusHeight v ∨
        maxTranslateY v < st.translateY)) ∧
    ((shouldLoad v st = true) ↔
      (minTranslateYPlusHeight v ≤ st.translateY + (st.height : ℚ) ∧
        st.translateY ≤ maxTranslateY v)) := by
  refine ⟨rfl, rfl, rfl, rfl, rfl, ?_, ?_⟩ <;>
    simp [shouldLoad, shouldHide, not_or, not_lt, gt_iff_lt]

/-- Claim C5 (amended): when an item's bottom edge sits exactly on the top
of the top buffer (translateY + height = lowerBound) and its top is not
below the bottom bound, the strict `<` in the hide condition does NOT
fire, so the item is loaded (included), not excluded. -/
theorem c5_boundary_loaded (v : Viewport) (st : ItemStyle)
    (h1 : st.translateY + (st.height : ℚ) = minTranslateYPlusHeight v)
    (h2 : st.translateY ≤ maxTranslateY v) :
    shouldLoad v st = true := by
  simp only [shouldLoad, shouldHide, Bool.not_eq_true', Bool.or_eq_false_iff,
    decide_eq_false_iff_not, not_lt, gt_iff_lt]
  exact ⟨le_of_eq h1.symm, h2⟩

/-- Witness for C5: the concrete boundary configuration `vpBoundary` /
`styBoundary` with translateY + height = 1500 + 200 = 1700 = lowerBound. -/
theorem c5_boundary_loaded_witness : shouldLoad vpBoundary styBoundary = true :=
  c5_boundary_loaded vpBoundary styBoundary
    (by norm_num [styBoundary, vpBoundary, minTranslateYPlusHeight, bufferTop,
      scrollDir_down_ne_up])
    (by norm_num [styBoundary, vpBoundary, maxTranslateY, bufferBottom,
      scrollDir_down_ne_up])

/-- Claim C5, counterexample: at the exact boundary
translateY + height = lowerBound the visibility decision LOADS the item
(the strict `<` comparison means equality does not trigger hiding), while
the claim asserts it is excluded. -/
theorem c5_counterexample :
    styBoundary.translateY + (styBoundary.height : ℚ) = minTranslateYPlusHeight vpBoundary ∧
    shouldLoad vpBoundary styBoundary = true := by
  constructor
  · norm_num [styBoundary, vpBoundary, minTranslateYPlusHeight, bufferTop,
      scrollDir_down_ne_up]
  · norm_num [styBoundary, vpBoundary, minTranslateYPlusHeight, maxTranslateY, bufferTop,
      bufferBottom, shouldLoad, shouldHide, scrollDir_down_ne_up]

/-- Claim C6 (amended): the derived direction is "down" iff the stored
offset is non-zero AND the new offset strictly exceeds it; whenever the
new offset equals the previous one the direction is "up"; and on any
notification while the stored offset is 0 — in particular the first one
after construction — the falsy `||` replaces the previous offset with the
new one, so the direction is "up" even when the new offset is larger. -/
theorem c6_scroll_direction (latest newY : ℚ) :
    scrollDirAfter latest newY =
      (if latest ≠ 0 ∧ latest < newY then ScrollDir.down else ScrollDir.up) ∧
    scrollDirAfter latest latest = ScrollDir.up ∧
    scrollDirAfter 0 newY = ScrollDir.up := by
  unfold scrollDirAfter previousAfter
  refine ⟨?_, ?_, ?_⟩
  · by_cases h0 : latest = 0
    · subst h0
      simp
    · simp [h0, gt_iff_lt]
  · by_cases h0 : latest = 0 <;> simp [h0]
  · simp

/-- Claim C6, counterexample: on the first scroll notification after
construction the stored offset is 0; reading a new offset of 50 (> 0, so
the claim requires "down") yields "up", because `latestYOffset ||
newYOffset` treats the stored 0 as falsy and sets previous = 50. -/
theorem c6_counterexample :
    (0 : ℚ) < 50 ∧ scrollDirAfter 0 50 = ScrollDir.up := by
  norm_num [scrollDirAfter, previousAfter]

/-- Claim C7: if `hide()` runs inside the 100 ms deferred window after
`load()`, the deferred callback re-checks `existsOnPage` and attaches
nothing (the state is unchanged and both sub-element slots are empty, the
figure is out of the container); and an asset's `onload` notification
firing after eviction is a total function that leaves the image state —
in particular container membership — untouched, mutating only the
closed-over sub-element's class attribute. -/
theorem c7_eviction_race (s : PImageState) (thumbUrl fullUrl : String) (a : SubElement) :
    loadDeferred (hideStep (loadSync s)) thumbUrl fullUrl = hideStep (loadSync s) ∧
    (hideStep (loadSync s)).thumbnail = none ∧
    (hideStep (loadSync s)).fullImage = none ∧
    (hideStep (loadSync s)).inContainer = false ∧
    (hideStep (loadSync s)).existsOnPage = false ∧
    (onloadFire (hideStep s) a).1 = hideStep s ∧
    (onloadFire (hideStep s) a).2.src = a.src ∧
    (onloadFire (hideStep s) a).2.className = a.className ++ (" pig-loaded") := by
  refine ⟨?_, rfl, rfl, ?_, rfl, rfl, rfl, rfl⟩
  · simp [loadDeferred, hideStep, loadSync]
  · simp [hideStep, loadSync]

/-- Claim C8: the code contradicts the clean-reattach requirement (and its
own doc comments).  Evaluating the listener model over the failing call
sequence `enable(); disable(); enable()`: after `disable()` the window
resize listener registered by the first `enable()` (identity 0) is still
attached, because `removeEventListener` was handed a fresh
`this._resize.bind(this)`; after re-enabling, the notifier holds TWO
layout callbacks (a duplicate registration), while the scroll side is
clean (exactly one listener, the fresh identity 1). -/
theorem c8_listener_leak :
    (pigDisable (pigEnable pigListenersInit)).resize.resizeListeners = [0] ∧
    (pigDisable (pigEnable pigListenersInit)).scrollListeners = [] ∧
    (pigEnable (pigDisable (pigEnable pigListenersInit))).resize.callbacks = 2 ∧
    (pigEnable (pigDisable (pigEnable pigListenersInit))).resize.resizeListeners = [0] ∧
    (pigEnable (pigDisable (pigEnable pigListenersInit))).scrollListeners = [1] := by
  decide

theorem onScrollNotify_latest (s : RafState) (y : ℚ) :
    (onScrollNotify s y).latestYOffset = y := by
  unfold onScrollNotify
  by_cases h : s.inRAF <;> simp [h]

theorem onScrollNotify_inRAF (s : RafState) (y : ℚ) (h : s.inRAF = true) :
    onScrollNotify s y =
      { s with previousYOffset := previousAfter s.latestYOffset y,
               latestYOffset := y,
               scrollDirection := scrollDirAfter s.latestYOffset y } := by
  unfold onScrollNotify
  simp [h]

theorem onScrollNotify_first (s : RafState) (y : ℚ) (h : s.inRAF = false) :
    (onScrollNotify s y).inRAF = true ∧
    (onScrollNotify s y).scheduledLayouts = s.scheduledLayouts + 1 := by
  unfold onScrollNotify
  simp [h]

theorem foldl_onScrollNotify_inRAF (l : List ℚ) :
    ∀ s : RafState, s.inRAF = true →
      (l.foldl onScrollNotify s).inRAF = true ∧
      (l.foldl onScrollNotify s).scheduledLayouts = s.scheduledLayouts := by
  induction l with
  | nil => intro s h; exact ⟨h, rfl⟩
  | cons y t ih =>
    intro s h
    rw [List.foldl_cons]
    have e := onScrollNotify_inRAF s y h
    obtain ⟨ha, hb⟩ := ih (onScrollNotify s y) (by rw [e]; exact h)
    refine ⟨ha, ?_⟩
    rw [hb, e]

theorem foldl_onScrollNotify_latest (l : List ℚ) :
    ∀ s : RafState, (l.foldl onScrollNotify s).latestYOffset = l.getLastD s.latestYOffset := by
  induction l with
  | nil => intro s; rfl
  | cons y t ih =>
    intro s
    rw [List.foldl_cons, List.getLastD_cons, ih, onScrollNotify_latest]

/-- Claim C9: delivering any non-empty burst of scroll notifications
synchronously within one frame, starting from a state with no pass in
flight, schedules exactly ONE layout pass (the `inRAF` guard absorbs the
rest); the pass, when the frame fires, reads the offset and direction
written by the LAST notification of the burst, and firing clears the
guard and the schedule. -/
theorem c9_frame_coalescing (s : RafState) (offs : List ℚ)
    (hne : offs ≠ []) (hraf : s.inRAF = false) (hsch : s.scheduledLayouts = 0) :
    (offs.foldl onScrollNotify s).scheduledLayouts = 1 ∧
    (offs.foldl onScrollNotify s).inRAF = true ∧
    (offs.foldl onScrollNotify s).latestYOffset = offs.getLastD 0 ∧
    (frameFire (offs.foldl onScrollNotify s)).1 =
      ((offs.foldl onScrollNotify s).latestYOffset,
        (offs.foldl onScrollNotify s).scrollDirection) ∧
    (frameFire (offs.foldl onScrollNotify s)).2.inRAF = false ∧
    (frameFire (offs.foldl onScrollNotify s)).2.scheduledLayouts = 0 := by
  obtain ⟨y, t, rfl⟩ := List.exists_cons_of_ne_nil hne
  rw [List.foldl_cons]
  obtain ⟨h1, h2⟩ := onScrollNotify_first s y hraf
  obtain ⟨ha, hb⟩ := foldl_onScrollNotify_inRAF t (onScrollNotify s y) h1
  have hsched1 : (t.foldl onScrollNotify (onScrollNotify s y)).scheduledLayouts = 1 := by
    rw [hb, h2, hsch]
  have hlatest := foldl_onScrollNotify_latest t (onScrollNotify s y)
  refine ⟨hsched1, ha, ?_, rfl, rfl, ?_⟩
  · rw [hlatest, onScrollNotify_latest, List.getLastD_cons]
  · show (t.foldl onScrollNotify (onScrollNotify s y)).scheduledLayouts - 1 = 0
    rw [hsched1]

/-- Witness for C9: three synchronous notifications with offsets 10, 20, 5
from the freshly constructed state schedule exactly one pass that reads
offset 5. -/
theorem c9_frame_coalescing_witness :
    ([(10 : ℚ), 20, 5].foldl onScrollNotify rafInit).scheduledLayouts = 1 ∧
    ([(10 : ℚ), 20, 5].foldl onScrollNotify rafInit).inRAF = true ∧
    ([(10 : ℚ), 20, 5].foldl onScrollNotify rafInit).latestYOffset =
      [(10 : ℚ), 20, 5].getLastD 0 ∧
    (frameFire ([(10 : ℚ), 20, 5].foldl onScrollNotify rafInit)).1 =
      (([(10 : ℚ), 20, 5].foldl onScrollNotify rafInit).latestYOffset,
        ([(10 : ℚ), 20, 5].foldl onScrollNotify rafInit).scrollDirection) ∧
    (frameFire ([(10 : ℚ), 20, 5].foldl onScrollNotify rafInit)).2.inRAF = false ∧
    (frameFire ([(10 : ℚ), 20, 5].foldl onScrollNotify rafInit)).2.scheduledLayouts = 0 :=
  c9_frame_coalescing rafInit [10, 20, 5] (by simp) rfl rfl

/-- Claim C10: with an empty item collection the layout loop never runs,
the vertical cursor stays at 0, and `totalHeight` is set to
`0 - spaceBetweenImages` — strictly negative for every positive spacing,
and -8 with the default spacing — and `_doLayout` writes exactly this
`totalHeight` as the container's content height. -/
theorem c10_empty_total_height (W sp m : ℚ) (v : Viewport) (styles : List ItemStyle) :
    (computeLayoutAux W sp m [] [] 0 0).2 = 0 ∧
    (computeLayout [] W sp m).2 = 0 - sp ∧
    (0 < sp → (computeLayout [] W sp m).2 < 0) ∧
    (computeLayout [] W 8 m).2 = -8 ∧
    (doLayoutModel v styles).1 = v.totalHeight := by
  refine ⟨rfl, rfl, ?_, ?_, rfl⟩
  · intro h
    show (0 : ℚ) - sp < 0
    linarith
  · show (0 : ℚ) - 8 = -8
    norm_num

/-- Witness for C10: with the default spacing 8 the empty grid's total
height is negative. -/
theorem c10_empty_total_height_witness :
    0 < (8 : ℚ) ∧ (computeLayout [] 100 8 5).2 < 0 :=
  ⟨by norm_num, (c10_empty_total_height 100 8 5 vpBoundary []).2.2.1 (by norm_num)⟩
